import Mathlib

/-!
# evok-mqtt-bridge: the translation layer of `cmd/main.go`

A shallow embedding of the bridge between an MQTT broker and the EVOK gateway.

* The process-wide `config` is an explicit argument of every function.
* The handlers have side effects only: a handler call is embedded as the list
  of `Event`s it performs, in program order, together with the way it ends.
* What the collaborators answer is an input of the call: the result of
  `json.Unmarshal`, the result of `json.Marshal`, the error of each publish
  token and the outcome of the HTTP request.
* `float64` is embedded as IEEE-754 binary64 (`Float64`), with the addition and
  the `%v` formatting the source applies to it.
-/

set_option autoImplicit false

namespace EvokMqttBridge

/-! ## float64 -/

/-- A Go `float64`.  `fin neg mant exp` is the number `(-1)^neg * mant * 2^exp`.
The values the operations below produce are canonical: `mant < 2^53`,
`-1074 ≤ exp ≤ 971`, and `2^52 ≤ mant` unless `exp = -1074` (subnormals and the
two zeros, which are `fin false 0 (-1074)` and `fin true 0 (-1074)`). -/
inductive Float64 where
  | nan
  | inf (neg : Bool)
  | fin (neg : Bool) (mant : Nat) (exp : Int)
deriving DecidableEq, Repr

namespace Float64

/-- Position of the highest set bit of `n`, that is `⌊log₂ n⌋` (0 for `n = 0`). -/
def log2Aux : Nat → Nat → Nat
  | 0, _ => 0
  | fuel + 1, n => if n < 2 then 0 else log2Aux fuel (n / 2) + 1

/-- The number `⌊log₂ n⌋`; the fuel `n` is never used up. -/
def log2 (n : Nat) : Nat := log2Aux n n

/-- Test `num / den < 10 ^ k`. -/
def ltPow10 (num den : Nat) (k : Int) : Bool :=
  if 0 ≤ k then decide (num < den * 10 ^ k.toNat) else decide (num * 10 ^ (-k).toNat < den)

/-- Test `2 ^ k ≤ num / den`. -/
def gePow2 (num den : Nat) (k : Int) : Bool :=
  if 0 ≤ k then decide (den * 2 ^ k.toNat ≤ num) else decide (den ≤ num * 2 ^ (-k).toNat)

/-- The float64 nearest to the rational `num / den` with the given sign, ties to
the even mantissa (the rounding of every IEEE-754 operation in Go); magnitudes
beyond the largest finite value give an infinity. -/
def roundNearestEven (neg : Bool) (num den : Nat) : Float64 :=
  if num = 0 ∨ den = 0 then fin neg 0 (-1074)
  else
    let k : Int := (log2 num : Int) - (log2 den : Int)
    let l : Int := if gePow2 num den k then k else k - 1
    let e : Int := max (l - 52) (-1074)
    let n := if 0 ≤ e then num else num * 2 ^ (-e).toNat
    let d := if 0 ≤ e then den * 2 ^ e.toNat else den
    let q := n / d
    let r := n % d
    let q := if d < 2 * r ∨ (2 * r = d ∧ q % 2 = 1) then q + 1 else q
    let (q, e) := if q = 2 ^ 53 then (2 ^ 52, e + 1) else (q, e)
    if 971 < e then inf neg else fin neg q e

/-- The constant `0.0`. -/
def zero : Float64 := fin false 0 (-1074)

/-- Go's `x + y` on float64.  A sum of two zeros is `-0` when both are `-0` and
`+0` otherwise; adding a zero to a number that is not zero leaves the number;
otherwise the result is the exact sum rounded to nearest-even, `+0` when the
exact sum is zero. -/
def add : Float64 → Float64 → Float64
  | nan, _ => nan
  | _, nan => nan
  | inf a, inf b => if a = b then inf a else nan
  | inf a, fin _ _ _ => inf a
  | fin _ _ _, inf b => inf b
  | fin na ma ea, fin nb mb eb =>
    if ma = 0 ∧ mb = 0 then fin (na && nb) 0 (-1074)
    else if mb = 0 then fin na ma ea
    else if ma = 0 then fin nb mb eb
    else
      let e := min ea eb
      let a : Int := (if na then -1 else 1) * (ma * 2 ^ (ea - e).toNat : Nat)
      let b : Int := (if nb then -1 else 1) * (mb * 2 ^ (eb - e).toNat : Nat)
      let s := a + b
      if s = 0 then fin false 0 (-1074)
      else if 0 ≤ e then roundNearestEven (decide (s < 0)) (s.natAbs * 2 ^ e.toNat) 1
      else roundNearestEven (decide (s < 0)) s.natAbs (2 ^ (-e).toNat)

/-- The integer `c` times `10 ^ p`, rounded to float64. -/
def ofDecimal (neg : Bool) (c : Nat) (p : Int) : Float64 :=
  if 0 ≤ p then roundNearestEven neg (c * 10 ^ p.toNat) 1
  else roundNearestEven neg c (10 ^ (-p).toNat)

/-! ### `json.Number.Float64` -/

/-- Value of a decimal digit character. -/
def digitVal (c : Char) : Nat := c.toNat - 48

/-- Test for the characters `0` to `9`. -/
def isDigit (c : Char) : Bool := decide (48 ≤ c.toNat ∧ c.toNat ≤ 57)

/-- Split off the leading run of decimal digits. -/
def spanDigits : List Char → List Char × List Char
  | [] => ([], [])
  | c :: cs =>
    if isDigit c then ((spanDigits cs).1.cons c, (spanDigits cs).2) else ([], c :: cs)

/-- The number a digit string denotes. -/
def digitsToNat (ds : List Char) : Nat := ds.foldl (fun acc c => 10 * acc + digitVal c) 0

/-- The exponent part of a JSON number: nothing, or `e`/`E`, an optional sign and
at least one digit, up to the end of the text. -/
def parseExp : List Char → Option Int
  | [] => some 0
  | c :: cs =>
    if c = 'e' ∨ c = 'E' then
      let (neg, ds) := match cs with
        | '+' :: r => (false, r)
        | '-' :: r => (true, r)
        | r => (false, r)
      let (x, rest) := spanDigits ds
      if x = [] ∨ rest ≠ [] then none
      else some (if neg then -(digitsToNat x : Int) else digitsToNat x)
    else none

/-- A JSON number without its sign: an integer part without superfluous leading
zero, an optional fraction, an optional exponent. -/
def parseUnsigned (neg : Bool) (cs : List Char) : Option Float64 :=
  let (ip, r1) := spanDigits cs
  if ip = [] ∨ (ip.length > 1 ∧ ip.head? = some '0') then none
  else
    let fr : Option (List Char × List Char) := match r1 with
      | '.' :: r => let (fp, r2) := spanDigits r; if fp = [] then none else some (fp, r2)
      | r => some ([], r)
    match fr with
    | none => none
    | some (fp, r2) =>
      match parseExp r2 with
      | none => none
      | some x => some (ofDecimal neg (digitsToNat (ip ++ fp)) (x - fp.length))

/-- The value `v` of `v, _ := n.Float64()` for a `json.Number` `n`, which is
`strconv.ParseFloat(string(n), 64)` with the error dropped.  A JSON number
literal gives the nearest float64 (an infinity when out of range); any other
text gives 0, as `ParseFloat` does on a syntax error.  `json.Unmarshal` stores
in a `json.Number` only a JSON number literal, or leaves it empty; the forms
`ParseFloat` accepts beyond the JSON grammar (a leading `+`, hexadecimal,
`Inf`, `NaN`) are outside this model. -/
def parse (s : String) : Float64 :=
  let r := match s.data with
    | '-' :: cs => parseUnsigned true cs
    | cs => parseUnsigned false cs
  r.getD zero

/-! ### `fmt.Sprintf("%v", x)` -/

/-- The first `k` among `k, k + 1, ...` (at most `fuel` steps) with `num / den < 10 ^ k`. -/
def decExpFrom (num den : Nat) : Nat → Int → Int
  | 0, k => k
  | fuel + 1, k => if ltPow10 num den k then k else decExpFrom num den fuel (k + 1)

/-- The `dp` with `10 ^ (dp - 1) ≤ num / den < 10 ^ dp`, searched from a lower
estimate obtained from the binary logarithm. -/
def decExp (num den : Nat) : Int :=
  let l : Int := (log2 num : Int) - (log2 den : Int)
  decExpFrom num den 6 (l * 30103 / 100000 - 2)

/-- The decimal with `nd` digits (as an integer, to be scaled by `10 ^ (dp - nd)`)
that parses back to `x`, if there is one: one of the two neighbours of
`num / den`, the nearer one when both do. -/
def candidate (x : Float64) (neg : Bool) (num den : Nat) (dp : Int) (nd : Nat) : Option Nat :=
  let p : Int := dp - nd
  let n := if 0 ≤ p then num else num * 10 ^ (-p).toNat
  let d := if 0 ≤ p then den * 10 ^ p.toNat else den
  let lo := n / d
  let r := n % d
  let hi := if r = 0 then lo else lo + 1
  let okLo := decide (ofDecimal neg lo p = x)
  let okHi := decide (ofDecimal neg hi p = x)
  if okLo ∧ okHi then some (if d < 2 * r ∨ (2 * r = d ∧ lo % 2 = 1) then hi else lo)
  else if okLo then some lo
  else if okHi then some hi
  else none

/-- The least number of digits `nd, nd + 1, ...` for which `candidate` succeeds. -/
def shortestFrom (x : Float64) (neg : Bool) (num den : Nat) (dp : Int) : Nat → Nat → Nat × Nat
  | 0, nd => (0, nd)
  | fuel + 1, nd =>
    match candidate x neg num den dp nd with
    | some c => (c, nd)
    | none => shortestFrom x neg num den dp fuel (nd + 1)

/-- Drop trailing zero digits. -/
def stripZeros : Nat → List Nat → List Nat
  | 0, ds => ds
  | fuel + 1, ds => if ds.getLast? = some 0 then stripZeros fuel ds.dropLast else ds

/-- The shortest decimal digits `d₁ d₂ ... dₙ` and the position `dp` of the
decimal point, with `0.d₁d₂...dₙ * 10 ^ dp` parsing back to `x` (precision `-1`
of `strconv.FormatFloat`; 17 digits always suffice). -/
def shortest (x : Float64) (neg : Bool) (num den : Nat) : List Nat × Int :=
  let dp := decExp num den
  let (c, nd) := shortestFrom x neg num den dp 17 1
  let ds := (Nat.toDigits 10 c).map digitVal
  (stripZeros ds.length ds, dp + ((ds.length : Int) - nd))

/-- The character of a decimal digit. -/
def digitChar (d : Nat) : Char := Char.ofNat (48 + d)

/-- Layout `%e`: `d.ddde±xx`, the exponent with at least two digits. -/
def fmtE (ds : List Nat) (dp : Int) : String :=
  let exp := dp - 1
  let head := match ds with
    | [] => "0"
    | d :: rest => String.mk (digitChar d :: (if rest = [] then [] else '.' :: rest.map digitChar))
  let a := exp.natAbs
  let es := if a < 10 then "0" ++ toString a else toString a
  head ++ "e" ++ (if exp < 0 then "-" else "+") ++ es

/-- Layout `%f` with as many decimals as there are digits after the point. -/
def fmtF (ds : List Nat) (dp : Int) : String :=
  let nd := ds.length
  let ip := if 0 < dp then
      String.mk ((ds.take dp.toNat).map digitChar ++ List.replicate (dp.toNat - nd) '0')
    else "0"
  let prec := ((nd : Int) - dp).toNat
  let fp := if 0 < prec then
      String.mk ('.' :: List.replicate (min (-dp).toNat prec) '0' ++ (ds.drop dp.toNat).map digitChar)
    else ""
  ip ++ fp

/-- Layout `%g` at shortest precision: `%e` when the decimal exponent is below
`-4` or at least 6, else `%f`. -/
def fmtG (ds : List Nat) (dp : Int) : String :=
  let exp := dp - 1
  if exp < -4 ∨ 6 ≤ exp then fmtE ds dp else fmtF ds dp

/-- Go's `fmt.Sprintf("%v", x)` for a float64 `x`: `%g` with the smallest number
of digits that identifies `x`.  The digits are computed for the canonical form
of `x`, which `roundNearestEven` gives. -/
def sprintV : Float64 → String
  | nan => "NaN"
  | inf neg => if neg then "-Inf" else "+Inf"
  | fin neg m e =>
    let sign := if neg then "-" else ""
    if m = 0 then sign ++ "0"
    else
      let num := if 0 ≤ e then m * 2 ^ e.toNat else m
      let den := if 0 ≤ e then 1 else 2 ^ (-e).toNat
      let (ds, dp) := shortest (roundNearestEven neg num den) neg num den
      sign ++ fmtG ds dp

end Float64

/-! ## Data model -/

/-- Modelled from the spec: `types.Mapping` of package `pkg/types`, which is not
among the sources.  The spec gives a mapping entry as
`{device: string, circuit: string, topic: string, offset: float64}`;
`main.go` reads the fields `Device`, `Circuit`, `Topic` and `Offset`. -/
structure Mapping where
  Device : String
  Circuit : String
  Topic : String
  Offset : Float64
deriving DecidableEq, Repr

/-- Modelled from the spec: `types.Config` of package `pkg/types`, which is not
among the sources.  The spec gives the configuration as
`{interval: int (seconds), mappings: [...]}`; `main.go` reads `config.Mappings`
and `config.Interval`. -/
structure Config where
  Interval : Int
  Mappings : List Mapping
deriving DecidableEq, Repr

/-- Modelled from the spec: `types.EvokMessage` of package `pkg/types`, which is
not among the sources.  One reading of a push frame,
`{dev: string, circuit: string, value: number-as-string-or-number}`; `main.go`
calls `sensor.Value.Float64()`, so `Value` is a `json.Number`, a string. -/
structure EvokMessage where
  Dev : String
  Circuit : String
  Value : String
deriving DecidableEq, Repr

/-- Modelled from the spec: `types.GPIOStates` of package `pkg/types`, which is
not among the sources.  One reading of a poll snapshot,
`{dev, circuit, value: float}`; `main.go` passes `sensor.Value` to a `float64`
parameter. -/
structure GPIOStates where
  Dev : String
  Circuit : String
  Value : Float64
deriving DecidableEq, Repr

/-- Modelled from the spec: `types.Message` of package `pkg/types`, which is not
among the sources.  The command sent to the gateway,
`{command: "set", dev: string, circuit: string, value: string}`; `main.go` sets
the fields `Command`, `Device`, `Circuit` and `Value`, the last a `json.Number`. -/
structure Message where
  Command : String
  Device : String
  Circuit : String
  Value : String
deriving DecidableEq, Repr

/-- What `json.Unmarshal(text, &dst)` did: the slice it left in `dst` and the
error it returned. -/
structure Decoded (α : Type) where
  data : List α
  err : Option String
deriving DecidableEq, Repr

/-- The two package-level mutexes. -/
inductive Mutex where
  | send
  | recv
deriving DecidableEq, Repr

/-- The observable steps of a handler call.  `log` carries the format string of
the `log.Printf` or `log.Fatalf` call, not its arguments.  `translate` and
`build` are not effects: they mark the point of the program where a reading has
been translated (`topicMapper` and `applyOffset` have returned these values) and
where a command has been constructed and handed to `json.Marshal`. -/
inductive Event where
  | log (format : String)
  | translate (topic payload : String)
  | build (msg : Message)
  | lock (m : Mutex)
  | unlock (m : Mutex)
  | publish (topic : String) (qos : Nat) (retained : Bool) (payload : String)
  | sendText (text : String)
  | sleep (seconds : Int)
deriving DecidableEq, Repr

/-- How a call ends: it returns, `log.Fatalf` ends the process, or it panics. -/
inductive Status where
  | returned
  | exited
  | panicked
deriving DecidableEq, Repr

/-- A handler call: its events in program order and its end. -/
structure Outcome where
  events : List Event
  status : Status
deriving DecidableEq, Repr

/-- The outcome of the request of one poll iteration. -/
inductive Fetch where
  | getFailed
  | readFailed
  | body (decoded : Decoded GPIOStates)
deriving DecidableEq, Repr

/-! ## Topic resolver -/

/-- The loop of `topicMapper`: the topic of the first entry whose device and
circuit both match, when there is one. -/
def topicMapperLoop (device circuit : String) : List Mapping → Option String
  | [] => none
  | m :: ms =>
    if m.Device = device ∧ m.Circuit = circuit then some m.Topic
    else topicMapperLoop device circuit ms

/-- The function `topicMapper(device, circuit)`. -/
def topicMapper (config : Config) (device circuit : String) : String :=
  match topicMapperLoop device circuit config.Mappings with
  | some topic => topic
  | none => "evok/" ++ device ++ "/" ++ circuit ++ "/value"

/-- The variable `offset` of `applyOffset` after its loop: 0.0, or the offset of
the first entry whose topic is `topic`. -/
def applyOffsetLoop (topic : String) : List Mapping → Float64
  | [] => Float64.zero
  | m :: ms => if m.Topic = topic then m.Offset else applyOffsetLoop topic ms

/-- The function `applyOffset(input, topic)`. -/
def applyOffset (config : Config) (input : Float64) (topic : String) : String :=
  Float64.sprintV (Float64.add input (applyOffsetLoop topic config.Mappings))

/-! ## Gateway to broker, push path -/

/-- The log line of a failed publish, or nothing. -/
def publishLog (failed : Bool) : List Event :=
  if failed then [Event.log "Failed to publish packet: %s"] else []

/-- The loop of `onEvokMessage` from its `i`-th publish on; `pubFails i` tells
whether the token of the `i`-th publish of the call carries an error. -/
def onEvokMessageLoop (config : Config) (pubFails : Nat → Bool) : Nat → List EvokMessage → List Event
  | _, [] => []
  | i, sensor :: rest =>
    let topic := topicMapper config sensor.Dev sensor.Circuit
    let v := Float64.parse sensor.Value
    let value := applyOffset config v topic
    [Event.translate topic value, Event.lock Mutex.recv, Event.publish topic 0 true value]
      ++ publishLog (pubFails i)
      ++ [Event.unlock Mutex.recv]
      ++ onEvokMessageLoop config pubFails (i + 1) rest

/-- The handler `onEvokMessage(message, socket)`; `decoded` is what
`json.Unmarshal` made of `message`. -/
def onEvokMessage (config : Config) (pubFails : Nat → Bool) (decoded : Decoded EvokMessage) : Outcome :=
  match decoded.err with
  | some _ =>
    ⟨[Event.log "Failed to unmarshal JSON data from EVOK message: %s\n"], Status.returned⟩
  | none => ⟨onEvokMessageLoop config pubFails 0 decoded.data, Status.returned⟩

/-! ## Broker to gateway -/

/-- Go's `strings.Split` on a list of characters, for a one-character separator. -/
def splitChars (sep : Char) : List Char → List (List Char)
  | [] => [[]]
  | c :: cs =>
    match splitChars sep cs with
    | [] => [[c]]
    | seg :: segs => if c = sep then [] :: seg :: segs else (c :: seg) :: segs

/-- Go's `strings.Split(s, sep)` for a one-character separator. -/
def stringsSplit (s : String) (sep : Char) : List String :=
  (splitChars sep s.data).map String.mk

/-- The command `onMQTTMessage` constructs from the topic and the payload of a
message, `none` when an index expression `[1]` or `[2]` is out of range (the
handler panics there). -/
def buildCommand (topic payload : String) : Option Message :=
  match (stringsSplit topic '/')[1]? with
  | none => none
  | some device =>
    match (stringsSplit topic '/')[2]? with
    | none => none
    | some circuit => some ⟨"set", device, circuit, payload⟩

/-- The handler `onMQTTMessage(client, message)` for a message with the given
topic and payload; `marshal` is the outcome of `json.Marshal` on the command. -/
def onMQTTMessage (marshal : Message → Except String String) (topic payload : String) : Outcome :=
  let received := Event.log "Received message on MQTT topic: '%s' with payload: '%v'\n"
  match buildCommand topic payload with
  | none => ⟨[received], Status.panicked⟩
  | some msg =>
    match marshal msg with
    | Except.error _ =>
      ⟨[received, Event.build msg,
        Event.log "Wrong data received on MQTT topic '%s' with payload: %+v\n"], Status.returned⟩
    | Except.ok text =>
      ⟨[received, Event.build msg, Event.lock Mutex.send, Event.sendText text,
        Event.unlock Mutex.send], Status.returned⟩

/-! ## Gateway to broker, poll path -/

/-- The loop of `synchronizer` from its `i`-th publish on. -/
def synchronizerLoop (config : Config) (pubFails : Nat → Bool) : Nat → List GPIOStates → List Event
  | _, [] => []
  | i, sensor :: rest =>
    if sensor.Dev ≠ "temp" ∧ sensor.Dev ≠ "relay" ∧ sensor.Dev ≠ "ai" ∧ sensor.Dev ≠ "input"
        ∧ sensor.Dev ≠ "ao" then
      Event.log "Ignoring device %s" :: synchronizerLoop config pubFails i rest
    else
      let topic := topicMapper config sensor.Dev sensor.Circuit
      let value := applyOffset config sensor.Value topic
      [Event.translate topic value, Event.publish topic 0 true value]
        ++ publishLog (pubFails i)
        ++ synchronizerLoop config pubFails (i + 1) rest

/-- One call `synchronizer(evok, interval)`, that is one iteration of the poll
loop of `main`. -/
def synchronizer (config : Config) (pubFails : Nat → Bool) (fetch : Fetch) (interval : Int) : Outcome :=
  match fetch with
  | Fetch.getFailed => ⟨[Event.log "Couldn't connect to EVOK: %v"], Status.exited⟩
  | Fetch.readFailed => ⟨[Event.log "Couldn't read EVOK data: %v"], Status.exited⟩
  | Fetch.body decoded =>
    let failure := match decoded.err with
      | some _ => [Event.log "Failed to unmarshal JSON data from EVOK message: %v\n"]
      | none => []
    ⟨failure ++ [Event.log "Got data from evok: %v"]
      ++ synchronizerLoop config pubFails 0 decoded.data
      ++ [Event.sleep interval], Status.returned⟩

/-! ## Observations on a trace -/

/-- The publish attempts of a trace, in order. -/
def publishesOf (events : List Event) : List Event :=
  events.filter (fun ev => match ev with
    | Event.publish _ _ _ _ => true
    | _ => false)

/-- The log lines of a trace, in order. -/
def logsOf (events : List Event) : List Event :=
  events.filter (fun ev => match ev with
    | Event.log _ => true
    | _ => false)

/-- The publish attempt the translation of a push reading leads to. -/
def pushPublish (config : Config) (sensor : EvokMessage) : Event :=
  Event.publish (topicMapper config sensor.Dev sensor.Circuit) 0 true
    (applyOffset config (Float64.parse sensor.Value) (topicMapper config sensor.Dev sensor.Circuit))

/-- The publish attempt the translation of a poll reading leads to. -/
def pollPublish (config : Config) (sensor : GPIOStates) : Event :=
  Event.publish (topicMapper config sensor.Dev sensor.Circuit) 0 true
    (applyOffset config sensor.Value (topicMapper config sensor.Dev sensor.Circuit))

/-- The device kinds the poll path lets through. -/
def allowedDev (dev : String) : Bool :=
  decide (dev = "temp" ∨ dev = "relay" ∨ dev = "ai" ∨ dev = "input" ∨ dev = "ao")

/-- The steps of the translate-and-send sequence of a message. -/
def isWork : Event → Bool
  | Event.translate _ _ => true
  | Event.build _ => true
  | Event.publish _ _ _ _ => true
  | Event.sendText _ => true
  | _ => false

/-- The lock `m` is held across the whole translate-and-send sequence: every
translation, construction, publish and send of the trace lies between the first
`lock m` and the first `unlock m` after it. -/
def heldAcross (m : Mutex) (events : List Event) : Bool :=
  let before := events.takeWhile (fun ev => ev != Event.lock m)
  let inside := (events.dropWhile (fun ev => ev != Event.lock m)).drop 1
  let after := (inside.dropWhile (fun ev => ev != Event.unlock m)).drop 1
  !before.any isWork && !after.any isWork

/-- Where a scan of a trace stands with respect to one mutex: the mutex is free,
held with the network call still to come, or held with the call done. -/
inductive Section where
  | free
  | entered
  | done
deriving DecidableEq, Repr

/-- The lock `m` is held around each single network call and around nothing
else: `translate` and `build` occur while `m` is free, every `publish` and
`sendText` is the one call of a critical section of `m`, and `m` is free at the
end of the trace. -/
def lockedPerCall (m : Mutex) : Section → List Event → Bool
  | st, [] => decide (st = Section.free)
  | st, Event.translate _ _ :: rest => decide (st = Section.free) && lockedPerCall m st rest
  | st, Event.build _ :: rest => decide (st = Section.free) && lockedPerCall m st rest
  | st, Event.lock k :: rest =>
    if k = m then decide (st = Section.free) && lockedPerCall m Section.entered rest
    else lockedPerCall m st rest
  | st, Event.publish _ _ _ _ :: rest =>
    decide (st = Section.entered) && lockedPerCall m Section.done rest
  | st, Event.sendText _ :: rest =>
    decide (st = Section.entered) && lockedPerCall m Section.done rest
  | st, Event.unlock k :: rest =>
    if k = m then decide (st = Section.done) && lockedPerCall m Section.free rest
    else lockedPerCall m st rest
  | st, Event.log _ :: rest => lockedPerCall m st rest
  | st, Event.sleep _ :: rest => lockedPerCall m st rest

/-! ## Sample inputs -/

/-- The mapping table of the offset example of the spec. -/
def outdoorConfig : Config :=
  ⟨10, [⟨"temp", "1", "sensors/outdoor", Float64.parse "-2.5"⟩]⟩

/-- A table without mappings. -/
def emptyConfig : Config := ⟨10, []⟩

/-- A publish pattern without failures. -/
def allDelivered : Nat → Bool := fun _ => false

/-- A publish pattern in which every publish fails. -/
def noneDelivered : Nat → Bool := fun _ => true

/-- Two entries for the same device and circuit. -/
def duplicateConfig : Config :=
  ⟨10, [⟨"temp", "1", "sensors/a", Float64.parse "1"⟩,
        ⟨"temp", "1", "sensors/b", Float64.parse "2"⟩]⟩

/-- Two entries for different circuits that name the same topic. -/
def sharedTopicConfig : Config :=
  ⟨10, [⟨"temp", "1", "sensors/t", Float64.parse "1"⟩,
        ⟨"temp", "2", "sensors/t", Float64.parse "2"⟩]⟩

/-- An entry whose topic is the default topic of another device, and an entry
for a device kind the poll path does not let through. -/
def defaultTopicConfig : Config :=
  ⟨10, [⟨"ai", "3", "evok/relay/1/value", Float64.parse "5"⟩,
        ⟨"wd", "1", "sensors/wd", Float64.parse "0.5"⟩]⟩

/-! ## The topic resolver -/

theorem topicMapperLoop_none (device circuit : String) (ms : List Mapping)
    (h : ∀ m ∈ ms, ¬(m.Device = device ∧ m.Circuit = circuit)) :
    topicMapperLoop device circuit ms = none := by
  induction ms with
  | nil => rfl
  | cons m ms ih =>
    have hm := h m (List.mem_cons_self _ _)
    simp only [topicMapperLoop, if_neg hm]
    exact ih (fun x hx => h x (List.mem_cons_of_mem _ hx))

theorem topicMapperLoop_first (device circuit : String) (pre post : List Mapping) (e : Mapping)
    (hpre : ∀ m ∈ pre, ¬(m.Device = device ∧ m.Circuit = circuit))
    (hd : e.Device = device) (hc : e.Circuit = circuit) :
    topicMapperLoop device circuit (pre ++ e :: post) = some e.Topic := by
  induction pre with
  | nil => simp [topicMapperLoop, hd, hc]
  | cons m ms ih =>
    have hm := hpre m (List.mem_cons_self _ _)
    simp only [List.cons_append, topicMapperLoop, if_neg hm]
    exact ih (fun x hx => hpre x (List.mem_cons_of_mem _ hx))

theorem applyOffsetLoop_none (topic : String) (ms : List Mapping)
    (h : ∀ m ∈ ms, m.Topic ≠ topic) : applyOffsetLoop topic ms = Float64.zero := by
  induction ms with
  | nil => rfl
  | cons m ms ih =>
    have hm := h m (List.mem_cons_self _ _)
    simp only [applyOffsetLoop, if_neg hm]
    exact ih (fun x hx => h x (List.mem_cons_of_mem _ hx))

theorem applyOffsetLoop_first (topic : String) (pre post : List Mapping) (e : Mapping)
    (hpre : ∀ m ∈ pre, m.Topic ≠ topic) (ht : e.Topic = topic) :
    applyOffsetLoop topic (pre ++ e :: post) = e.Offset := by
  induction pre with
  | nil => simp [applyOffsetLoop, ht]
  | cons m ms ih =>
    have hm := hpre m (List.mem_cons_self _ _)
    simp only [List.cons_append, applyOffsetLoop, if_neg hm]
    exact ih (fun x hx => hpre x (List.mem_cons_of_mem _ hx))

/-- A list with an element satisfying `p` splits at the first such element. -/
theorem exists_first_split {α : Type} (p : α → Prop) [DecidablePred p] (l : List α)
    (h : ∃ x ∈ l, p x) :
    ∃ pre e post, l = pre ++ e :: post ∧ (∀ m ∈ pre, ¬ p m) ∧ p e := by
  induction l with
  | nil => obtain ⟨x, hx, _⟩ := h; cases hx
  | cons a l ih =>
    by_cases ha : p a
    · exact ⟨[], a, l, rfl, (fun m hm => by cases hm), ha⟩
    · have h2 : ∃ x ∈ l, p x := by
        obtain ⟨x, hx, hpx⟩ := h
        rcases List.mem_cons.mp hx with rfl | hx
        · exact absurd hpx ha
        · exact ⟨x, hx, hpx⟩
      obtain ⟨pre, e, post, hl, hpre, he⟩ := ih h2
      refine ⟨a :: pre, e, post, by rw [hl]; rfl, ?_, he⟩
      intro m hm
      rcases List.mem_cons.mp hm with rfl | hm
      · exact ha
      · exact hpre m hm

/-- C1: for every mapping table and every (device, circuit), `topicMapper` returns
the topic of the first entry with that device and that circuit when some entry
has them, and `"evok/" + device + "/" + circuit + "/value"` when none has. -/
theorem topicMapper_first_match_or_default (config : Config) (device circuit : String) :
    (∀ pre e post, config.Mappings = pre ++ e :: post →
        (∀ m ∈ pre, ¬(m.Device = device ∧ m.Circuit = circuit)) →
        e.Device = device → e.Circuit = circuit →
        topicMapper config device circuit = e.Topic) ∧
    ((∃ m ∈ config.Mappings, m.Device = device ∧ m.Circuit = circuit) →
        ∃ pre e post, config.Mappings = pre ++ e :: post ∧
          (∀ m ∈ pre, ¬(m.Device = device ∧ m.Circuit = circuit)) ∧
          e.Device = device ∧ e.Circuit = circuit ∧
          topicMapper config device circuit = e.Topic) ∧
    ((∀ m ∈ config.Mappings, ¬(m.Device = device ∧ m.Circuit = circuit)) →
        topicMapper config device circuit = "evok/" ++ device ++ "/" ++ circuit ++ "/value") := by
  have first : ∀ pre e post, config.Mappings = pre ++ e :: post →
      (∀ m ∈ pre, ¬(m.Device = device ∧ m.Circuit = circuit)) →
      e.Device = device → e.Circuit = circuit →
      topicMapper config device circuit = e.Topic := by
    intro pre e post hcfg hpre hd hc
    simp only [topicMapper, hcfg, topicMapperLoop_first device circuit pre post e hpre hd hc]
  refine ⟨first, ?_, ?_⟩
  · intro h
    obtain ⟨pre, e, post, hl, hpre, hd, hc⟩ :=
      exists_first_split (fun m : Mapping => m.Device = device ∧ m.Circuit = circuit) _ h
    exact ⟨pre, e, post, hl, hpre, hd, hc, first pre e post hl hpre hd hc⟩
  · intro h
    simp only [topicMapper, topicMapperLoop_none device circuit _ h]

/-- C1, at the duplicate table: the first of the two entries for ("temp", "1")
gives the topic, and a pair without entry gets the default topic. -/
theorem topicMapper_first_match_or_default_witness :
    topicMapper duplicateConfig "temp" "1" = "sensors/a" ∧
    topicMapper duplicateConfig "relay" "1" = "evok/relay/1/value" :=
  ⟨(topicMapper_first_match_or_default duplicateConfig "temp" "1").1 []
      ⟨"temp", "1", "sensors/a", Float64.parse "1"⟩
      [⟨"temp", "1", "sensors/b", Float64.parse "2"⟩] rfl (fun _ h => by cases h) rfl rfl,
   (topicMapper_first_match_or_default duplicateConfig "relay" "1").2.2 (by decide)⟩

/-- Adding the offset 0.0 does not change what `%v` prints, except for negative
zero. -/
theorem sprintV_add_zero (v : Float64) (h : ∀ e, v ≠ Float64.fin true 0 e) :
    Float64.sprintV (Float64.add v Float64.zero) = Float64.sprintV v := by
  cases v with
  | nan => rfl
  | inf a => rfl
  | fin n m e =>
    by_cases hm : m = 0
    · subst hm
      cases n with
      | true => exact absurd rfl (h e)
      | false => simp [Float64.add, Float64.zero, Float64.sprintV]
    · simp [Float64.add, Float64.zero, hm]

/-- C2 as stated fails.  The second entry of the shared-topic table is an entry
of the table, and the offset resolved for its topic is 1, the offset of the
first entry, not its own offset 2.  And a value is not formatted unadjusted when
no entry has the topic: 0.0 is added to it, so -0 is formatted as "0" while its
own `%v` string is "-0". -/
theorem applyOffset_shared_topic_counterexample :
    ((⟨"temp", "2", "sensors/t", Float64.parse "2"⟩ : Mapping) ∈ sharedTopicConfig.Mappings ∧
      applyOffsetLoop "sensors/t" sharedTopicConfig.Mappings = Float64.parse "1" ∧
      applyOffsetLoop "sensors/t" sharedTopicConfig.Mappings ≠ Float64.parse "2" ∧
      applyOffset sharedTopicConfig (Float64.parse "20") "sensors/t" = "21") ∧
    ((∀ m ∈ sharedTopicConfig.Mappings, m.Topic ≠ "evok/relay/1/value") ∧
      applyOffset sharedTopicConfig (Float64.parse "-0") "evok/relay/1/value" = "0" ∧
      Float64.sprintV (Float64.parse "-0") = "-0") := by
  decide

/-- C2, amended: for every mapping table, the offset `applyOffset` resolves for a
topic is the offset of the first entry having that topic, so it is `e.Offset`
for every entry `e` that no earlier entry shares its topic with; for a topic
that no entry has, it is 0.0.  The returned string is the `%v` format of the
input plus that offset; with the offset 0.0 it is the `%v` format of the input
itself unless the input is negative zero. -/
theorem applyOffset_first_topic_or_zero (config : Config) (topic : String) :
    (∀ pre e post, config.Mappings = pre ++ e :: post →
        (∀ m ∈ pre, m.Topic ≠ topic) → e.Topic = topic →
        applyOffsetLoop topic config.Mappings = e.Offset ∧
        ∀ input, applyOffset config input topic = Float64.sprintV (Float64.add input e.Offset)) ∧
    ((∃ m ∈ config.Mappings, m.Topic = topic) →
        ∃ pre e post, config.Mappings = pre ++ e :: post ∧
          (∀ m ∈ pre, m.Topic ≠ topic) ∧ e.Topic = topic ∧
          applyOffsetLoop topic config.Mappings = e.Offset) ∧
    ((∀ m ∈ config.Mappings, m.Topic ≠ topic) →
        applyOffsetLoop topic config.Mappings = Float64.zero ∧
        (∀ input, applyOffset config input topic
          = Float64.sprintV (Float64.add input Float64.zero)) ∧
        (∀ input : Float64, (∀ x, input ≠ Float64.fin true 0 x) →
          applyOffset config input topic = Float64.sprintV input)) := by
  have first : ∀ pre e post, config.Mappings = pre ++ e :: post →
      (∀ m ∈ pre, m.Topic ≠ topic) → e.Topic = topic →
      applyOffsetLoop topic config.Mappings = e.Offset := by
    intro pre e post hcfg hpre ht
    rw [hcfg]
    exact applyOffsetLoop_first topic pre post e hpre ht
  refine ⟨?_, ?_, ?_⟩
  · intro pre e post hcfg hpre ht
    refine ⟨first pre e post hcfg hpre ht, ?_⟩
    intro input
    simp only [applyOffset, first pre e post hcfg hpre ht]
  · intro h
    obtain ⟨pre, e, post, hl, hpre, ht⟩ :=
      exists_first_split (fun m : Mapping => m.Topic = topic) _ h
    exact ⟨pre, e, post, hl, hpre, ht, first pre e post hl hpre ht⟩
  · intro h
    refine ⟨applyOffsetLoop_none topic _ h, ?_, ?_⟩
    · intro input
      simp only [applyOffset, applyOffsetLoop_none topic _ h]
    · intro input hin
      simp only [applyOffset, applyOffsetLoop_none topic _ h, sprintV_add_zero input hin]

/-- C2, amended, at the shared-topic table: its first entry gives the offset of
"sensors/t", and a topic of no entry gets 0.0. -/
theorem applyOffset_first_topic_or_zero_witness :
    applyOffsetLoop "sensors/t" sharedTopicConfig.Mappings = Float64.parse "1" ∧
    applyOffsetLoop "evok/relay/1/value" sharedTopicConfig.Mappings = Float64.zero :=
  ⟨((applyOffset_first_topic_or_zero sharedTopicConfig "sensors/t").1 []
      ⟨"temp", "1", "sensors/t", Float64.parse "1"⟩
      [⟨"temp", "2", "sensors/t", Float64.parse "2"⟩] rfl (fun _ h => by cases h) rfl).1,
   ((applyOffset_first_topic_or_zero sharedTopicConfig "evok/relay/1/value").2.2 (by decide)).1⟩

/-! ## Publish attempts of the two loops -/

theorem publishesOf_append (a b : List Event) :
    publishesOf (a ++ b) = publishesOf a ++ publishesOf b := by
  simp [publishesOf]

theorem publishesOf_publishLog (failed : Bool) : publishesOf (publishLog failed) = [] := by
  cases failed <;> rfl

theorem publishesOf_onEvokMessageLoop (config : Config) (pubFails : Nat → Bool) (i : Nat)
    (msgs : List EvokMessage) :
    publishesOf (onEvokMessageLoop config pubFails i msgs) = msgs.map (pushPublish config) := by
  induction msgs generalizing i with
  | nil => rfl
  | cons r rest ih =>
    simp only [onEvokMessageLoop, publishesOf_append, ih, publishesOf_publishLog, List.map_cons,
      pushPublish]
    simp [publishesOf]

theorem allowedDev_eq_false_iff (dev : String) :
    allowedDev dev = false ↔
      (dev ≠ "temp" ∧ dev ≠ "relay" ∧ dev ≠ "ai" ∧ dev ≠ "input" ∧ dev ≠ "ao") := by
  simp [allowedDev]

theorem publishesOf_synchronizerLoop (config : Config) (pubFails : Nat → Bool) (i : Nat)
    (data : List GPIOStates) :
    publishesOf (synchronizerLoop config pubFails i data)
      = (data.filter (fun r => allowedDev r.Dev)).map (pollPublish config) := by
  induction data generalizing i with
  | nil => rfl
  | cons r rest ih =>
    by_cases h : r.Dev ≠ "temp" ∧ r.Dev ≠ "relay" ∧ r.Dev ≠ "ai" ∧ r.Dev ≠ "input" ∧ r.Dev ≠ "ao"
    · have ha : allowedDev r.Dev = false := (allowedDev_eq_false_iff r.Dev).mpr h
      have hcons : publishesOf (Event.log "Ignoring device %s" :: synchronizerLoop config pubFails i rest)
          = publishesOf (synchronizerLoop config pubFails i rest) := by
        simp [publishesOf]
      simp only [synchronizerLoop, if_pos h, List.filter_cons, ha, hcons, ih]
      simp
    · have ha : allowedDev r.Dev = true := by
        cases hb : allowedDev r.Dev with
        | true => rfl
        | false => exact absurd ((allowedDev_eq_false_iff r.Dev).mp hb) h
      simp only [synchronizerLoop, if_neg h, List.filter_cons, ha, publishesOf_append, ih,
        publishesOf_publishLog, List.map_cons]
      simp [publishesOf, pollPublish]

theorem publishesOf_synchronizer (config : Config) (pubFails : Nat → Bool)
    (decoded : Decoded GPIOStates) (interval : Int) :
    publishesOf (synchronizer config pubFails (Fetch.body decoded) interval).events
      = (decoded.data.filter (fun r => allowedDev r.Dev)).map (pollPublish config) := by
  simp only [synchronizer, publishesOf_append, publishesOf_synchronizerLoop]
  cases decoded.err <;> simp [publishesOf]

theorem publishesOf_onEvokMessage (config : Config) (pubFails : Nat → Bool)
    (msgs : List EvokMessage) :
    publishesOf (onEvokMessage config pubFails ⟨msgs, none⟩).events
      = msgs.map (pushPublish config) := by
  simp only [onEvokMessage, publishesOf_onEvokMessageLoop]

/-! ## Gateway to broker: one reading -/

/-- C3 as stated fails.  In the duplicate table the second entry matches the
reading ("temp", "1") but the publish goes to the topic of the first entry, with
the offset of the first entry.  In the shared-topic table the second entry is
the only one matching ("temp", "2"), the publish goes to its topic, but with the
offset 1 of the first entry, so the payload is "21", not "22".  On the poll
path a reading of device kind "wd" is not published at all, although an entry
matches it. -/
theorem translation_of_mapped_reading_counterexample :
    ((⟨"temp", "1", "sensors/b", Float64.parse "2"⟩ : Mapping) ∈ duplicateConfig.Mappings ∧
      publishesOf (onEvokMessage duplicateConfig allDelivered
          ⟨[⟨"temp", "1", "20"⟩], none⟩).events
        = [Event.publish "sensors/a" 0 true "21"]) ∧
    ((⟨"temp", "2", "sensors/t", Float64.parse "2"⟩ : Mapping) ∈ sharedTopicConfig.Mappings ∧
      publishesOf (onEvokMessage sharedTopicConfig allDelivered
          ⟨[⟨"temp", "2", "20"⟩], none⟩).events
        = [Event.publish "sensors/t" 0 true "21"] ∧
      Float64.sprintV (Float64.add (Float64.parse "20") (Float64.parse "2")) = "22") ∧
    ((⟨"wd", "1", "sensors/wd", Float64.parse "0.5"⟩ : Mapping) ∈ defaultTopicConfig.Mappings ∧
      publishesOf (synchronizer defaultTopicConfig allDelivered
          (Fetch.body ⟨[⟨"wd", "1", Float64.parse "20"⟩], none⟩) 10).events = []) := by
  decide

/-- C3, amended: let `e` be the first entry of the mapping table whose device
and circuit are those of a reading, and let no earlier entry have the topic of
`e`.  Then the reading is published on `e.Topic`, retained and with QoS 0, with
payload the `%v` string of the reading's value plus `e.Offset`: on the push path
always, on the poll path when the device kind is let through. -/
theorem translation_of_first_entry (config : Config) (pre post : List Mapping) (e : Mapping)
    (dev circuit : String)
    (hcfg : config.Mappings = pre ++ e :: post)
    (hdev : e.Device = dev) (hcirc : e.Circuit = circuit)
    (hfirst : ∀ m ∈ pre, ¬(m.Device = dev ∧ m.Circuit = circuit))
    (htopic : ∀ m ∈ pre, m.Topic ≠ e.Topic) :
    (∀ pubFails before after value,
        publishesOf (onEvokMessage config pubFails
            ⟨before ++ ⟨dev, circuit, value⟩ :: after, none⟩).events
          = before.map (pushPublish config)
            ++ Event.publish e.Topic 0 true
                (Float64.sprintV (Float64.add (Float64.parse value) e.Offset))
              :: after.map (pushPublish config)) ∧
    (∀ pubFails before after value err interval, allowedDev dev = true →
        publishesOf (synchronizer config pubFails
            (Fetch.body ⟨before ++ ⟨dev, circuit, value⟩ :: after, err⟩) interval).events
          = (before.filter (fun r => allowedDev r.Dev)).map (pollPublish config)
            ++ Event.publish e.Topic 0 true (Float64.sprintV (Float64.add value e.Offset))
              :: (after.filter (fun r => allowedDev r.Dev)).map (pollPublish config)) := by
  have ht : topicMapper config dev circuit = e.Topic := by
    simp only [topicMapper, hcfg, topicMapperLoop_first dev circuit pre post e hfirst hdev hcirc]
  have ho : ∀ input, applyOffset config input e.Topic
      = Float64.sprintV (Float64.add input e.Offset) := by
    intro input
    simp only [applyOffset, hcfg, applyOffsetLoop_first e.Topic pre post e htopic rfl]
  refine ⟨?_, ?_⟩
  · intro pubFails before after value
    rw [publishesOf_onEvokMessage]
    simp only [List.map_append, List.map_cons, pushPublish, ht, ho]
  · intro pubFails before after value err interval hallow
    rw [publishesOf_synchronizer]
    simp only [List.filter_append, List.filter_cons, hallow, if_true, List.map_append,
      List.map_cons, pollPublish, ht, ho]

/-- C3, amended, at the example of the spec: the entry
`{temp, 1, sensors/outdoor, -2.5}` and the reading `{temp, 1, 20.0}` give the
payload "17.5" on "sensors/outdoor", on the push path and on the poll path. -/
theorem translation_of_first_entry_witness :
    publishesOf (onEvokMessage outdoorConfig allDelivered
        ⟨[⟨"temp", "1", "20.0"⟩], none⟩).events
      = [Event.publish "sensors/outdoor" 0 true "17.5"] ∧
    publishesOf (synchronizer outdoorConfig allDelivered
        (Fetch.body ⟨[⟨"temp", "1", Float64.parse "20.0"⟩], none⟩) 10).events
      = [Event.publish "sensors/outdoor" 0 true "17.5"] :=
  ⟨((translation_of_first_entry outdoorConfig [] []
        ⟨"temp", "1", "sensors/outdoor", Float64.parse "-2.5"⟩ "temp" "1" rfl rfl rfl
        (fun _ h => by cases h) (fun _ h => by cases h)).1 allDelivered [] [] "20.0").trans
      (by decide),
   ((translation_of_first_entry outdoorConfig [] []
        ⟨"temp", "1", "sensors/outdoor", Float64.parse "-2.5"⟩ "temp" "1" rfl rfl rfl
        (fun _ h => by cases h) (fun _ h => by cases h)).2 allDelivered [] []
        (Float64.parse "20.0") none 10 (by decide)).trans
      (by decide)⟩

/-- C4 as stated fails.  No entry of the table matches the reading
("relay", "1"), yet the offset 5 of the entry whose topic is the reading's
default topic is added, so 1.0 is published as "6", not as "1".  With an empty
table the reading -0 is published as "0", while its own `%v` string is "-0". -/
theorem translation_of_unmapped_reading_counterexample :
    ((∀ m ∈ defaultTopicConfig.Mappings, ¬(m.Device = "relay" ∧ m.Circuit = "1")) ∧
      publishesOf (onEvokMessage defaultTopicConfig allDelivered
          ⟨[⟨"relay", "1", "1.0"⟩], none⟩).events
        = [Event.publish "evok/relay/1/value" 0 true "6"] ∧
      Float64.sprintV (Float64.parse "1.0") = "1") ∧
    (publishesOf (onEvokMessage emptyConfig allDelivered ⟨[⟨"relay", "1", "-0"⟩], none⟩).events
        = [Event.publish "evok/relay/1/value" 0 true "0"] ∧
      Float64.sprintV (Float64.parse "-0") = "-0") := by
  decide

/-- C4, amended: when no entry of the mapping table matches the device and the
circuit of a reading and no entry has the reading's default topic as its topic,
the reading is published on the default topic `evok/{dev}/{circuit}/value`,
retained and with QoS 0, with payload the `%v` string of the value plus 0.0;
that is the `%v` string of the value itself unless the value is negative zero.
On the poll path this holds when the device kind is let through. -/
theorem translation_of_unmapped_reading (config : Config) (dev circuit : String)
    (hnone : ∀ m ∈ config.Mappings, ¬(m.Device = dev ∧ m.Circuit = circuit))
    (htopic : ∀ m ∈ config.Mappings, m.Topic ≠ "evok/" ++ dev ++ "/" ++ circuit ++ "/value") :
    (∀ pubFails before after value,
        publishesOf (onEvokMessage config pubFails
            ⟨before ++ ⟨dev, circuit, value⟩ :: after, none⟩).events
          = before.map (pushPublish config)
            ++ Event.publish ("evok/" ++ dev ++ "/" ++ circuit ++ "/value") 0 true
                (Float64.sprintV (Float64.add (Float64.parse value) Float64.zero))
              :: after.map (pushPublish config)) ∧
    (∀ pubFails before after value err interval, allowedDev dev = true →
        publishesOf (synchronizer config pubFails
            (Fetch.body ⟨before ++ ⟨dev, circuit, value⟩ :: after, err⟩) interval).events
          = (before.filter (fun r => allowedDev r.Dev)).map (pollPublish config)
            ++ Event.publish ("evok/" ++ dev ++ "/" ++ circuit ++ "/value") 0 true
                (Float64.sprintV (Float64.add value Float64.zero))
              :: (after.filter (fun r => allowedDev r.Dev)).map (pollPublish config)) ∧
    (∀ v : Float64, (∀ x, v ≠ Float64.fin true 0 x) →
        applyOffset config v ("evok/" ++ dev ++ "/" ++ circuit ++ "/value")
          = Float64.sprintV v) := by
  have ht : topicMapper config dev circuit = "evok/" ++ dev ++ "/" ++ circuit ++ "/value" := by
    simp only [topicMapper, topicMapperLoop_none dev circuit _ hnone]
  have ho : ∀ input, applyOffset config input ("evok/" ++ dev ++ "/" ++ circuit ++ "/value")
      = Float64.sprintV (Float64.add input Float64.zero) := by
    intro input
    simp only [applyOffset, applyOffsetLoop_none _ _ htopic]
  refine ⟨?_, ?_, ?_⟩
  · intro pubFails before after value
    rw [publishesOf_onEvokMessage]
    simp only [List.map_append, List.map_cons, pushPublish, ht, ho]
  · intro pubFails before after value err interval hallow
    rw [publishesOf_synchronizer]
    simp only [List.filter_append, List.filter_cons, hallow, if_true, List.map_append,
      List.map_cons, pollPublish, ht, ho]
  · intro v hv
    rw [ho, sprintV_add_zero v hv]

/-- C4, amended, at the example of the spec: the reading `{relay, 1, 1.0}` with
no mapping gives the payload "1" on "evok/relay/1/value". -/
theorem translation_of_unmapped_reading_witness :
    publishesOf (onEvokMessage emptyConfig allDelivered
        ⟨[⟨"relay", "1", "1.0"⟩], none⟩).events
      = [Event.publish "evok/relay/1/value" 0 true "1"] :=
  ((translation_of_unmapped_reading emptyConfig "relay" "1"
      (fun _ h => by cases h) (fun _ h => by cases h)).1 allDelivered [] [] "1.0").trans
    (by decide)

/-! ## Broker to gateway -/

/-- C5: for every broker topic with at least 3 segments and every payload, the
index expressions of `onMQTTMessage` are in range and the command it builds has
command "set", the 2nd segment as device, the 3rd segment as circuit and the
payload, unchanged, as value; the handler returns, and when the command
serialises it is that command's text that is sent. -/
theorem onMQTTMessage_builds_set_command (topic payload : String)
    (h : 3 ≤ (stringsSplit topic '/').length) :
    ∃ device circuit,
      (stringsSplit topic '/')[1]? = some device ∧
      (stringsSplit topic '/')[2]? = some circuit ∧
      buildCommand topic payload = some ⟨"set", device, circuit, payload⟩ ∧
      ∀ marshal : Message → Except String String,
        (onMQTTMessage marshal topic payload).status = Status.returned ∧
        (onMQTTMessage marshal topic payload).events.take 2
          = [Event.log "Received message on MQTT topic: '%s' with payload: '%v'\n",
             Event.build ⟨"set", device, circuit, payload⟩] ∧
        (∀ text, marshal ⟨"set", device, circuit, payload⟩ = Except.ok text →
          (onMQTTMessage marshal topic payload).events
            = [Event.log "Received message on MQTT topic: '%s' with payload: '%v'\n",
               Event.build ⟨"set", device, circuit, payload⟩,
               Event.lock Mutex.send, Event.sendText text, Event.unlock Mutex.send]) := by
  have h1 : (stringsSplit topic '/')[1]? = some ((stringsSplit topic '/').get ⟨1, by omega⟩) :=
    List.getElem?_eq_getElem (by omega)
  have h2 : (stringsSplit topic '/')[2]? = some ((stringsSplit topic '/').get ⟨2, by omega⟩) :=
    List.getElem?_eq_getElem (by omega)
  have hb : buildCommand topic payload
      = some ⟨"set", (stringsSplit topic '/').get ⟨1, by omega⟩,
          (stringsSplit topic '/').get ⟨2, by omega⟩, payload⟩ := by
    simp only [buildCommand, h1, h2]
  refine ⟨_, _, h1, h2, hb, ?_⟩
  intro marshal
  simp only [onMQTTMessage, hb]
  cases hm : marshal ⟨"set", (stringsSplit topic '/').get ⟨1, by omega⟩,
      (stringsSplit topic '/').get ⟨2, by omega⟩, payload⟩ with
  | error e => simp
  | ok text => simp

/-- C5, at the example of the spec: topic "evok/relay/1/set" with payload "1"
gives the command `{set, relay, 1, "1"}`. -/
theorem onMQTTMessage_builds_set_command_witness :
    3 ≤ (stringsSplit "evok/relay/1/set" '/').length ∧
    buildCommand "evok/relay/1/set" "1" = some ⟨"set", "relay", "1", "1"⟩ := by
  refine ⟨by decide, ?_⟩
  obtain ⟨d, c, h1, h2, hb, _⟩ :=
    onMQTTMessage_builds_set_command "evok/relay/1/set" "1" (by decide)
  have e1 : (stringsSplit "evok/relay/1/set" '/')[1]? = some "relay" := by decide
  have e2 : (stringsSplit "evok/relay/1/set" '/')[2]? = some "1" := by decide
  rw [h1] at e1
  rw [h2] at e2
  cases e1
  cases e2
  exact hb

/-! ## Batches -/

/-- C6: for every poll snapshot the publishes of `synchronizer` are those of the
readings whose dev is "temp", "relay", "ai", "input" or "ao", one for each such
reading in snapshot order; a reading with any other dev, such as
"unknown_kind", gives none. -/
theorem synchronizer_publishes_allowed_kinds (config : Config) (pubFails : Nat → Bool)
    (data : List GPIOStates) (err : Option String) (interval : Int) :
    publishesOf (synchronizer config pubFails (Fetch.body ⟨data, err⟩) interval).events
      = (data.filter (fun r => decide (r.Dev = "temp" ∨ r.Dev = "relay" ∨ r.Dev = "ai"
            ∨ r.Dev = "input" ∨ r.Dev = "ao"))).map
          (fun r => Event.publish (topicMapper config r.Dev r.Circuit) 0 true
            (applyOffset config r.Value (topicMapper config r.Dev r.Circuit))) ∧
    (∀ circuit value,
      publishesOf (synchronizer config pubFails
        (Fetch.body ⟨[⟨"unknown_kind", circuit, value⟩], err⟩) interval).events = []) := by
  refine ⟨publishesOf_synchronizer config pubFails ⟨data, err⟩ interval, ?_⟩
  intro circuit value
  rw [publishesOf_synchronizer]
  simp [allowedDev]

/-- C7: for every batch of readings and every pattern of publish failures, the
publish attempts are one per retained reading, in the order of the batch, each
retained and with QoS 0, and the handler returns: on the push path for every
reading of the message, on the poll path for every reading of an allowed kind. -/
theorem publishes_one_per_reading_in_order (config : Config) (pubFails : Nat → Bool) :
    (∀ msgs : List EvokMessage,
      publishesOf (onEvokMessage config pubFails ⟨msgs, none⟩).events
        = msgs.map (fun r => Event.publish (topicMapper config r.Dev r.Circuit) 0 true
            (applyOffset config (Float64.parse r.Value) (topicMapper config r.Dev r.Circuit))) ∧
      (onEvokMessage config pubFails ⟨msgs, none⟩).status = Status.returned) ∧
    (∀ (data : List GPIOStates) (err : Option String) (interval : Int),
      publishesOf (synchronizer config pubFails (Fetch.body ⟨data, err⟩) interval).events
        = (data.filter (fun r => allowedDev r.Dev)).map
            (fun r => Event.publish (topicMapper config r.Dev r.Circuit) 0 true
              (applyOffset config r.Value (topicMapper config r.Dev r.Circuit))) ∧
      (synchronizer config pubFails (Fetch.body ⟨data, err⟩) interval).status
        = Status.returned) :=
  ⟨fun msgs => ⟨publishesOf_onEvokMessage config pubFails msgs, rfl⟩,
   fun data err interval => ⟨publishesOf_synchronizer config pubFails ⟨data, err⟩ interval, rfl⟩⟩

/-! ## Decode failures -/

/-- C8: when the text of a push frame fails to decode, `onEvokMessage` logs one
diagnostic, publishes nothing and returns. -/
theorem onEvokMessage_decode_failure (config : Config) (pubFails : Nat → Bool)
    (data : List EvokMessage) (err : String) :
    (onEvokMessage config pubFails ⟨data, some err⟩).events
      = [Event.log "Failed to unmarshal JSON data from EVOK message: %s\n"] ∧
    publishesOf (onEvokMessage config pubFails ⟨data, some err⟩).events = [] ∧
    (logsOf (onEvokMessage config pubFails ⟨data, some err⟩).events).length = 1 ∧
    (onEvokMessage config pubFails ⟨data, some err⟩).status = Status.returned :=
  ⟨rfl, rfl, rfl, rfl⟩

/-- C9 fails on the code: `synchronizer` logs the decode error and goes on with
whatever the decoder left in the slice.  For the body
`[{"dev":"temp","circuit":"1","value":"x"}]` `json.Unmarshal` reports a type
error for `value` and leaves the reading with value 0 in the slice, and that
reading is published. -/
theorem synchronizer_decode_failure_publishes :
    (synchronizer emptyConfig allDelivered
        (Fetch.body ⟨[⟨"temp", "1", Float64.zero⟩],
          some "json: cannot unmarshal string into Go struct field GPIOStates.value of type float64"⟩)
        10).events
      = [Event.log "Failed to unmarshal JSON data from EVOK message: %v\n",
         Event.log "Got data from evok: %v",
         Event.translate "evok/temp/1/value" "0",
         Event.publish "evok/temp/1/value" 0 true "0",
         Event.sleep 10] := by
  decide

/-! ## Locks -/

theorem lockedPerCall_onEvokMessageLoop (config : Config) (pubFails : Nat → Bool) (i : Nat)
    (msgs : List EvokMessage) :
    lockedPerCall Mutex.recv Section.free (onEvokMessageLoop config pubFails i msgs) = true := by
  induction msgs generalizing i with
  | nil => rfl
  | cons r rest ih =>
    cases hf : pubFails i <;>
      simp [onEvokMessageLoop, publishLog, hf, lockedPerCall, ih]

theorem heldAcross_work_first (m : Mutex) (ev : Event) (rest : List Event)
    (hw : isWork ev = true) (hne : ev ≠ Event.lock m) :
    heldAcross m (ev :: rest) = false := by
  have hb : (ev != Event.lock m) = true := by simpa using hne
  simp [heldAcross, List.takeWhile_cons, hb, hw]

theorem heldAcross_skip (m : Mutex) (ev : Event) (rest : List Event)
    (hw : isWork ev = false) (hne : ev ≠ Event.lock m) :
    heldAcross m (ev :: rest) = heldAcross m rest := by
  have hb : (ev != Event.lock m) = true := by simpa using hne
  simp [heldAcross, List.takeWhile_cons, List.dropWhile_cons, hb, hw]

theorem heldAcross_log_build (m : Mutex) (format : String) (msg : Message) (rest : List Event) :
    heldAcross m (Event.log format :: Event.build msg :: rest) = false := by
  rw [heldAcross_skip m (Event.log format) _ rfl (by simp),
    heldAcross_work_first m (Event.build msg) _ rfl (by simp)]

/-- C10 as stated fails: in the trace of a push message with two readings the
first reading is translated before the receive lock is taken, and the lock is
released after the first publish and taken again for the second. -/
theorem lock_across_message_counterexample :
    (onEvokMessage emptyConfig allDelivered
        ⟨[⟨"relay", "1", "1"⟩, ⟨"relay", "2", "0"⟩], none⟩).events
      = [Event.translate "evok/relay/1/value" "1", Event.lock Mutex.recv,
         Event.publish "evok/relay/1/value" 0 true "1", Event.unlock Mutex.recv,
         Event.translate "evok/relay/2/value" "0", Event.lock Mutex.recv,
         Event.publish "evok/relay/2/value" 0 true "0", Event.unlock Mutex.recv] ∧
    heldAcross Mutex.recv (onEvokMessage emptyConfig allDelivered
        ⟨[⟨"relay", "1", "1"⟩, ⟨"relay", "2", "0"⟩], none⟩).events = false := by
  decide

/-- C10, amended: a sink's lock is held around each single network call only.
In `onEvokMessage` every reading is translated with the receive lock free, then
the lock is taken, one publish is made and the lock is released before the next
reading is translated; so the lock is not held across a message that has a
reading.  In `onMQTTMessage` the command is constructed and serialised with the
send lock free and the lock is held around the one send only; so the lock is
not held across the handling of a message unless the handler panics before it
constructs anything. -/
theorem lock_held_per_network_call (config : Config) (pubFails : Nat → Bool) :
    (∀ decoded : Decoded EvokMessage,
      lockedPerCall Mutex.recv Section.free (onEvokMessage config pubFails decoded).events
        = true) ∧
    (∀ (r : EvokMessage) (rest : List EvokMessage),
      heldAcross Mutex.recv (onEvokMessage config pubFails ⟨r :: rest, none⟩).events = false) ∧
    (∀ (marshal : Message → Except String String) (topic payload : String),
      lockedPerCall Mutex.send Section.free (onMQTTMessage marshal topic payload).events
        = true ∧
      heldAcross Mutex.send (onMQTTMessage marshal topic payload).events
        = decide ((onMQTTMessage marshal topic payload).status = Status.panicked)) := by
  refine ⟨?_, ?_, ?_⟩
  · intro decoded
    cases hd : decoded.err with
    | some e => simp [onEvokMessage, hd, lockedPerCall]
    | none => simp [onEvokMessage, hd, lockedPerCall_onEvokMessageLoop]
  · intro r rest
    simp only [onEvokMessage, onEvokMessageLoop, List.cons_append]
    exact heldAcross_work_first _ _ _ rfl (by simp)
  · intro marshal topic payload
    cases hb : buildCommand topic payload with
    | none =>
      simp only [onMQTTMessage, hb]
      exact ⟨by simp [lockedPerCall], by decide⟩
    | some msg =>
      cases hm : marshal msg with
      | error e =>
        simp only [onMQTTMessage, hb, hm]
        refine ⟨by simp [lockedPerCall], ?_⟩
        rw [heldAcross_log_build]
        rfl
      | ok text =>
        simp only [onMQTTMessage, hb, hm]
        refine ⟨by simp [lockedPerCall], ?_⟩
        rw [heldAcross_log_build]
        rfl

end EvokMqttBridge
